import Mathlib

/-!
Shallow embedding of the fhevm-react-template SDK orchestration core
(instance lifecycle, decryption-signature cache, worker bridge, middleware,
batch operations, input validation) together with proofs about its claims.

Sources embedded (TypeScript, translated definition by definition):
* `packages/fhevm-sdk/src/utils/validation.ts` — address and config validation
* `errors.ts` — the typed error taxonomy (class names / codes)
* `core/client.ts` — `FhevmClient` constructor and `encrypt`
* instance management (`createInstance`) and decrypt/batch orchestration
* `workers/FheWorker.node.ts` — pending-request table, timeouts, terminate
* `middleware.ts` — middleware chain and `rateLimitMiddleware`

Machine integers: JS numbers that hold timestamps/counters are modelled as
`Int`/`Nat` (no overflow is relevant at these magnitudes). JS strings are
Lean `String`; JS `Array.prototype.sort` on ASCII hex addresses coincides
with lexicographic order on code units, modelled on `Char` values.
-/

namespace FhevmSpec

/-! ## Error taxonomy (errors.ts)

Each SDK error class carries a `name` and a `code`; plain JS `Error`s (used
by the worker bridge) carry only a message. -/

inductive FhevmErr where
  | config (msg : String)
  | instanceErr (msg : String)
  | encryption (msg : String)
  | decryption (msg : String)
  | signatureErr (msg : String)
  | abortErr (msg : String)
  | networkErr (msg : String)
  | plainErr (msg : String)
  deriving DecidableEq, Repr

/-- The JS `error.name` of each error class (`this.name = ...` in errors.ts);
plain `Error` has name `"Error"`. -/
def FhevmErr.errName : FhevmErr → String
  | .config _ => "FhevmConfigError"
  | .instanceErr _ => "FhevmInstanceError"
  | .encryption _ => "FhevmEncryptionError"
  | .decryption _ => "FhevmDecryptionError"
  | .signatureErr _ => "FhevmSignatureError"
  | .abortErr _ => "FhevmAbortError"
  | .networkErr _ => "FhevmNetworkError"
  | .plainErr _ => "Error"

/-- The `code` field set by each error class constructor in errors.ts. -/
def FhevmErr.errCode : FhevmErr → String
  | .config _ => "CONFIG_ERROR"
  | .instanceErr _ => "INSTANCE_ERROR"
  | .encryption _ => "ENCRYPTION_ERROR"
  | .decryption _ => "DECRYPTION_ERROR"
  | .signatureErr _ => "SIGNATURE_ERROR"
  | .abortErr _ => "ABORT"
  | .networkErr _ => "NETWORK_ERROR"
  | .plainErr _ => ""

/-- The `error.message` field. -/
def FhevmErr.errMsg : FhevmErr → String
  | .config m => m
  | .instanceErr m => m
  | .encryption m => m
  | .decryption m => m
  | .signatureErr m => m
  | .abortErr m => m
  | .networkErr m => m
  | .plainErr m => m

/-! ## JS dynamic values (for `typeof`-based config validation) -/

inductive JVal where
  | undef
  | jnull
  | jstr (s : String)
  | jnum (n : Int)
  | jbool (b : Bool)
  | jobj
  | jfun
  deriving DecidableEq, Repr

/-- JS `typeof`; note `typeof null === "object"`. -/
def JVal.typeOf : JVal → String
  | .undef => "undefined"
  | .jnull => "object"
  | .jstr _ => "string"
  | .jnum _ => "number"
  | .jbool _ => "boolean"
  | .jobj => "object"
  | .jfun => "function"

/-! ## validation.ts -/

/-- One character of the `[a-fA-F0-9]` character class. -/
def isHexDigit (c : Char) : Bool :=
  (('0' ≤ c && c ≤ '9') || ('a' ≤ c && c ≤ 'f') || ('A' ≤ c && c ≤ 'F'))

/-- `isValidAddress`, the regex test `/^0x[a-fA-F0-9]{40}$/.test(address)`. -/
def isValidAddress (s : String) : Bool :=
  match s.data with
  | '0' :: 'x' :: rest => rest.length == 40 && rest.all isHexDigit
  | _ => false

/-- `validateClientConfig(config)`: throws `FhevmConfigError` on a null
network, a network that is neither string nor object, a non-number
`chainId`, or a non-object `mockChains`; `undefined` fields pass. -/
def validateClientConfig (network chainId mockChains : JVal) :
    Except FhevmErr Unit :=
  if network = JVal.jnull then
    .error (.config "Network provider cannot be null")
  else if network ≠ JVal.undef ∧ network ≠ JVal.jnull ∧
      network.typeOf ≠ "string" ∧ network.typeOf ≠ "object" then
    .error (.config "Network must be a string (RPC URL) or EIP-1193 provider")
  else if chainId ≠ JVal.undef ∧ chainId.typeOf ≠ "number" then
    .error (.config "Chain ID must be a number")
  else if mockChains ≠ JVal.undef ∧ mockChains.typeOf ≠ "object" then
    .error (.config "Mock chains must be an object")
  else
    .ok ()

/-- The `FhevmClient` constructor (core/client.ts and the events/middleware
variant): `validateClientConfig(config)` runs first and synchronously; on
success the client is built with the given config. `createFhevmClient` is
the same function. -/
def constructFhevmClient (network chainId mockChains : JVal) :
    Except FhevmErr (JVal × JVal × JVal) :=
  match validateClientConfig network chainId mockChains with
  | .error e => .error e
  | .ok _ => .ok (network, chainId, mockChains)

/-! ## Instance lifecycle (`createInstance`, instance.ts)

`createInstance(client, {signal, onStatusChange, force})` is an async
function.  Its execution splits at the single `await createFhevmInstance`:
a synchronous prefix (cache fast path, network guard, abort guard, starting
the creation) and a resumption that runs when the creation settles (cache
the instance / wrap the failure).  Concurrency between overlapping calls is
modelled by an explicit scheduler over these two segments. -/

/-- The part of `ClientConfig` that `createInstance` consults. `network` is
`none` when `config.network` is undefined. -/
structure InstConfig where
  network : Option String
  chainId : Option Nat
  mockChains : List (Nat × String)
  deriving DecidableEq, Repr

/-- The mutable client slot `_instance` (an engine instance, abstracted to
an id). -/
structure InstClientState where
  cachedInstance : Option Nat
  deriving DecidableEq, Repr

/-- Outcome of the synchronous prefix of `createInstance` (everything that
runs before the `await createFhevmInstance(...)`). -/
inductive Phase1Result where
  | returnedCached (inst : Nat)
  | threw (e : FhevmErr)
  | startedCreation
  deriving DecidableEq, Repr

/-- Synchronous prefix of `createInstance`: return the cached instance if
present and not forcing; otherwise throw `FhevmInstanceError` when no
network is configured; throw `FhevmAbortError` when the signal is already
aborted; otherwise start `createFhevmInstance` and suspend. -/
def createInstancePhase1 (cfg : InstConfig) (st : InstClientState)
    (force aborted : Bool) : Phase1Result :=
  match force, st.cachedInstance with
  | false, some inst => .returnedCached inst
  | _, _ =>
    if cfg.network.isNone then
      .threw (.instanceErr
        "Network provider is required. Please provide a network when creating the client.")
    else if aborted then
      .threw (.abortErr "Operation was cancelled")
    else
      .startedCreation

/-- Resumption of `createInstance` after its own `createFhevmInstance`
settles: on success cache and return the instance; on failure surface
`FhevmAbortError` if aborted, else wrap the cause in `FhevmInstanceError`. -/
def createInstancePhase2 (st : InstClientState) (aborted : Bool)
    (outcome : Except String Nat) :
    Except FhevmErr Nat × InstClientState :=
  match outcome with
  | .ok inst => (.ok inst, { st with cachedInstance := some inst })
  | .error msg =>
    if aborted then (.error (.abortErr "Operation was cancelled"), st)
    else (.error (.instanceErr ("Failed to create FHEVM instance: " ++ msg)), st)

/-- Progress of one `createInstance(client, ...)` call. -/
inductive InstTask where
  | ready (force aborted : Bool)
  | awaitingCreation (aborted : Bool)
  | finishedOk (inst : Nat)
  | finishedErr (e : FhevmErr)
  deriving DecidableEq, Repr

/-- Shared state: the client plus every overlapping `createInstance` call,
with a count of how many times `createFhevmInstance` has been invoked. -/
structure InstSys where
  cfg : InstConfig
  client : InstClientState
  creations : Nat
  tasks : List InstTask
  deriving DecidableEq, Repr

/-- A scheduler action: run the synchronous prefix of call `i`, or settle
call `i`'s own `createFhevmInstance` with the given outcome. -/
inductive InstAct where
  | runStart (i : Nat)
  | settleCreation (i : Nat) (outcome : Except String Nat)
  deriving Repr

def instStep (s : InstSys) : InstAct → InstSys
  | .runStart i =>
    match s.tasks.get? i with
    | some (.ready force aborted) =>
      match createInstancePhase1 s.cfg s.client force aborted with
      | .returnedCached v => { s with tasks := s.tasks.set i (.finishedOk v) }
      | .threw e => { s with tasks := s.tasks.set i (.finishedErr e) }
      | .startedCreation =>
        { s with creations := s.creations + 1,
                 tasks := s.tasks.set i (.awaitingCreation aborted) }
    | _ => s
  | .settleCreation i outcome =>
    match s.tasks.get? i with
    | some (.awaitingCreation aborted) =>
      match createInstancePhase2 s.client aborted outcome with
      | (.ok v, st') =>
        { s with client := st', tasks := s.tasks.set i (.finishedOk v) }
      | (.error e, st') =>
        { s with client := st', tasks := s.tasks.set i (.finishedErr e) }
    | _ => s

def instRun (s : InstSys) (acts : List InstAct) : InstSys :=
  acts.foldl instStep s

/-- A client with `n` concurrent `createInstance` calls about to start
(no force, no abort). -/
def mkInstSys (cfg : InstConfig) (cache : Option Nat) (n : Nat) : InstSys :=
  { cfg := cfg, client := { cachedInstance := cache }, creations := 0,
    tasks := List.replicate n (.ready false false) }

/-! ## Worker bridge (`FheWorker`, workers/FheWorker.node.ts)

The bridge keeps a `pendingRequests` table keyed by session-unique request
id; each entry holds the resolve/reject callbacks and a timeout handle.
The machine below tracks the set of pending ids together with a settlement
log (a JS promise settles at most once; every settlement in the source is
paired with removing the id from the table and clearing its timer, so a
timer is live exactly while its id is pending). -/

/-- The message envelope `FheWorkerMessage` (payload abstracted). -/
structure WMessage where
  wtype : String
  wid : Option String
  payload : Option Nat
  werror : Option String
  deriving DecidableEq, Repr

inductive WOutcome where
  | resolvedP (payload : Option Nat)
  | rejectedE (msg : String)
  deriving DecidableEq, Repr

structure WorkerState where
  hasWorker : Bool
  isInitialized : Bool
  hasInitPromise : Bool
  pending : List String
  settled : List (String × WOutcome)
  deriving DecidableEq, Repr

/-- Per-request timeout used by `sendRequest` (60 second default). -/
def requestTimeoutMs : Nat := 60000

/-- `sendMessage` throws "Worker not initialized" when the worker handle is
null, so a terminated bridge cannot serve requests before re-`init`. -/
def canSend (st : WorkerState) : Bool := st.hasWorker

/-- `handleMessage(message)`: a message is consumed only when it carries an
id that is currently pending; the entry's timer is cleared, the entry is
deleted, and the promise settles once — resolve for a `*-response` type,
reject for `error`, resolve with the raw payload otherwise.  A message
whose id is absent from the table (e.g. a response arriving after the
timeout already fired) falls through with no effect. -/
def handleMessage (st : WorkerState) (m : WMessage) : WorkerState :=
  match m.wid with
  | some i =>
    if i ∈ st.pending then
      { st with
        pending := st.pending.erase i,
        settled := st.settled ++
          [(i,
            if "-response".data.isSuffixOf m.wtype.data then
              .resolvedP m.payload
            else if m.wtype = "error" then
              .rejectedE (m.werror.getD "Worker error")
            else
              .resolvedP m.payload)] }
    else st
  | none => st

inductive WEvent where
  | send (id : String)
  | timeoutFire (id : String)
  | message (m : WMessage)
  | terminateW
  deriving DecidableEq, Repr

/-- One step of the bridge.  `send` registers a pending entry
(`sendRequest`).  `timeoutFire` is the timeout callback: it deletes the
entry and rejects with the timeout error (it can only fire while the id is
pending, because every removal clears the timer).  `terminateW` is
`terminate()`: when a worker handle exists it is discarded, the initialized
flag and init promise are reset, and every pending request is rejected with
"Worker terminated" before the table is cleared. -/
def wstep (st : WorkerState) : WEvent → WorkerState
  | .send id => { st with pending := st.pending ++ [id] }
  | .timeoutFire id =>
    if id ∈ st.pending then
      { st with
        pending := st.pending.erase id,
        settled := st.settled ++ [(id, .rejectedE "Worker request timeout")] }
    else st
  | .message m => handleMessage st m
  | .terminateW =>
    if st.hasWorker then
      { hasWorker := false, isInitialized := false, hasInitPromise := false,
        pending := [],
        settled := st.settled ++
          st.pending.map (fun i => (i, WOutcome.rejectedE "Worker terminated")) }
    else st

def wrun (st : WorkerState) (evs : List WEvent) : WorkerState :=
  evs.foldl wstep st

/-- All settlements recorded for a given request id, in order. -/
def settlementsFor (st : WorkerState) (id : String) : List WOutcome :=
  (st.settled.filter (fun p => p.1 = id)).map Prod.snd

/-! ## String order and address-list normalization

JS `Array.prototype.sort()` without a comparator sorts strings by UTF-16
code units; on ASCII hex addresses this is lexicographic order on
characters. -/

/-- Lexicographic ≤ on character lists (compare the first differing
character; a prefix sorts before its extensions). -/
def charListLe : List Char → List Char → Bool
  | [], _ => true
  | _ :: _, [] => false
  | a :: as, b :: bs => if a = b then charListLe as bs else decide (a ≤ b)

def strLe (a b : String) : Bool := charListLe a.data b.data

def insertSorted (x : String) : List String → List String
  | [] => [x]
  | y :: ys => if strLe x y then x :: y :: ys else y :: insertSorted x ys

/-- Insertion sort by `strLe` (the default JS string sort). -/
def sortStrings : List String → List String
  | [] => []
  | x :: xs => insertSorted x (sortStrings xs)

def dedupFirstAux (seen : List String) : List String → List String
  | [] => []
  | x :: xs =>
    if x ∈ seen then dedupFirstAux seen xs
    else x :: dedupFirstAux (x :: seen) xs

/-- `Array.from(new Set(xs))`: deduplicate keeping first occurrences, in
insertion order. -/
def dedupFirst (l : List String) : List String := dedupFirstAux [] l

/-- Modelled from the spec: the normalization step of
`FhevmDecryptionSignature.loadOrSign` (its source file is not under src/;
only its caller in decrypt.ts is).  Spec §4.2: "normalize
`contractAddresses` to a sorted, deduplicated list". -/
def normalizeAddrs (addrs : List String) : List String :=
  sortStrings (dedupFirst addrs)

/-! ## Decryption signature cache (spec-modelled `loadOrSign`) -/

/-- The `DecryptionSignature` record (spec §3); key material is abstracted
to a numeric tag that identifies which signing operation produced it. -/
structure DecSig where
  contractAddresses : List String
  userAddress : String
  startTimestamp : Int
  durationDays : Int
  sigTag : Nat
  deriving DecidableEq, Repr

/-- Modelled from the spec: the default validity window (`durationDays`)
used when a fresh signature is created.  The spec fixes no number; any
positive constant serves. -/
def defaultDurationDays : Int := 365

/-- State threaded through the decrypt orchestration: the Storage-backed
signature cache, how many signing operations have run, how many
`userDecrypt` engine calls have run, which signatures were used for them,
and the events emitted on the client's event bus. -/
structure DecState where
  sigStore : List ((Option Nat × String × List String) × DecSig)
  signOps : Nat
  userDecryptCalls : Nat
  sigUses : List DecSig
  events : List String
  deriving DecidableEq, Repr

def emptyDecState : DecState :=
  { sigStore := [], signOps := 0, userDecryptCalls := 0, sigUses := [],
    events := [] }

/-- Modelled from the spec: `FhevmDecryptionSignature.loadOrSign(instance,
contractAddresses, signer, storage)` (source not under src/).  Spec §4.2:
normalize the address list; derive the deterministic cache key
(chain, signer address, normalized list); on a stored, unexpired entry
(`now < startTimestamp + durationDays*86400`) return it unchanged with no
signing; otherwise sign fresh typed data over the normalized set with a
fresh `startTimestamp` and the default `durationDays`, persist it under the
key, and return it.  Signing itself (a Signer capability call) is modelled
as always succeeding and is counted in `signOps`. -/
def loadOrSign (chainId : Option Nat) (addrs : List String)
    (signerAddress : String) (now : Int) (st : DecState) :
    DecSig × DecState :=
  let key := (chainId, signerAddress, normalizeAddrs addrs)
  match st.sigStore.lookup key with
  | some sig =>
    if now < sig.startTimestamp + sig.durationDays * 86400 then (sig, st)
    else
      let fresh : DecSig :=
        { contractAddresses := normalizeAddrs addrs,
          userAddress := signerAddress, startTimestamp := now,
          durationDays := defaultDurationDays, sigTag := st.signOps }
      (fresh, { st with sigStore := (key, fresh) :: st.sigStore,
                        signOps := st.signOps + 1 })
  | none =>
    let fresh : DecSig :=
      { contractAddresses := normalizeAddrs addrs,
        userAddress := signerAddress, startTimestamp := now,
        durationDays := defaultDurationDays, sigTag := st.signOps }
    (fresh, { st with sigStore := (key, fresh) :: st.sigStore,
                      signOps := st.signOps + 1 })

/-! ## Decrypt orchestration (decrypt.ts, batch.ts) and encrypt (encrypt.ts) -/

structure DecryptRequest where
  handle : String
  contractAddress : String
  deriving DecidableEq, Repr

/-- `l.take pat.length = pat`, i.e. `pat` starts `l`. -/
def startsWithChars (pat l : List Char) : Bool := decide (l.take pat.length = pat)

def strMentionsAux (pat : List Char) : List Char → Bool
  | [] => pat.isEmpty
  | c :: rest => startsWithChars pat (c :: rest) || strMentionsAux pat rest

/-- JS `String.prototype.includes` (case-sensitive substring test). -/
def strMentions (s pat : String) : Bool := strMentionsAux pat.data s.data

def validateDecryptRequestsAux : Nat → List DecryptRequest → Except FhevmErr Unit
  | _, [] => .ok ()
  | i, r :: rest =>
    if r.handle = "" then
      .error (.config s!"Request {i}: handle is required")
    else if r.contractAddress = "" then
      .error (.config s!"Request {i}: contractAddress is required")
    else if !isValidAddress r.contractAddress then
      .error (.config s!"Request {i}: invalid contract address {r.contractAddress}")
    else validateDecryptRequestsAux (i + 1) rest

/-- `validateDecryptRequests(requests)`: reject an empty list, then check
each request's handle (JS falsiness: the empty string fails `!req.handle`)
and contract address in order. -/
def validateDecryptRequests (requests : List DecryptRequest) :
    Except FhevmErr Unit :=
  if requests.length = 0 then
    .error (.config "At least one request is required")
  else validateDecryptRequestsAux 0 requests

/-- Decrypted results: handle ↦ cleartext (values abstracted to `Nat`). -/
abbrev DecResults := List (String × Nat)

/-- The `MiddlewareContext` for a decrypt run. -/
structure DecCtx where
  requestCount : Nat
  timestamp : Int
  deriving DecidableEq, Repr

/-- A middleware over the decrypt state monad: `(context, next) => result`. -/
def MwFn : Type :=
  DecCtx → (Unit → DecState → Except FhevmErr DecResults × DecState) →
    DecState → Except FhevmErr DecResults × DecState

/-- `MiddlewareChain.execute(context, finalHandler)`: nested continuations,
first-registered middleware outermost; with no middleware left the final
handler runs. -/
def executeChain (mws : List MwFn) (ctx : DecCtx)
    (finalHandler : Unit → DecState → Except FhevmErr DecResults × DecState) :
    DecState → Except FhevmErr DecResults × DecState :=
  match mws with
  | [] => finalHandler ()
  | m :: ms => m ctx (fun _ => executeChain ms ctx finalHandler)

/-- The innermost handler of `decrypt` (decrypt.ts): instance and signer
guards, request validation, unique contract addresses via
`Array.from(new Set(...))`, one `loadOrSign`, then one
`instance.userDecrypt` over all requests.  The Engine capability (spec §6)
is a function `f` giving each handle's cleartext; the `userDecrypt` call is
counted and the signature it was handed is recorded. -/
def decryptInner (chainId : Option Nat) (instancePresent : Bool)
    (signer : Option String) (requests : List DecryptRequest) (now : Int)
    (f : String → Nat) (st : DecState) :
    Except FhevmErr DecResults × DecState :=
  if !instancePresent then
    (.error (.config
      "FHEVM instance is required. Create one using createInstance() first."), st)
  else
    match signer with
    | none => (.error (.config "Signer is required for decryption"), st)
    | some signerAddr =>
      match validateDecryptRequests requests with
      | .error e => (.error e, st)
      | .ok _ =>
        let uniqueAddresses := dedupFirst (requests.map (·.contractAddress))
        let (sig, st1) := loadOrSign chainId uniqueAddresses signerAddr now st
        let st2 := { st1 with
          userDecryptCalls := st1.userDecryptCalls + 1,
          sigUses := st1.sigUses ++ [sig] }
        (.ok (requests.map (fun r => (r.handle, f r.handle))), st2)

/-- `decrypt(client, params)`: emit `decrypt:start`, run the middleware
chain around `decryptInner`, emit `decrypt:success` on success; on failure
emit `decrypt:error` and `error` and rethrow the cause wrapped as
`FhevmSignatureError` when its message mentions "signature" or "sign",
else as `FhevmDecryptionError`. -/
def decryptOp (mws : List MwFn) (chainId : Option Nat)
    (instancePresent : Bool) (signer : Option String)
    (requests : List DecryptRequest) (now : Int) (f : String → Nat)
    (st : DecState) : Except FhevmErr DecResults × DecState :=
  let st0 := { st with events := st.events ++ ["decrypt:start"] }
  let ctx : DecCtx := { requestCount := requests.length, timestamp := now }
  match executeChain mws ctx
      (fun _ => decryptInner chainId instancePresent signer requests now f)
      st0 with
  | (.ok res, st1) =>
    (.ok res, { st1 with events := st1.events ++ ["decrypt:success"] })
  | (.error e, st1) =>
    let st2 := { st1 with events := st1.events ++ ["decrypt:error", "error"] }
    if strMentions e.errMsg "signature" || strMentions e.errMsg "sign" then
      (.error (.signatureErr ("Signature error: " ++ e.errMsg)), st2)
    else
      (.error (.decryption ("Decryption failed: " ++ e.errMsg)), st2)

/-- `batchDecrypt(client, {instance, signer, requests})`: reject an empty
request list, then perform one `decrypt` call over all requests ("already
batched internally"). -/
def batchDecryptOp (mws : List MwFn) (chainId : Option Nat)
    (instancePresent : Bool) (signer : Option String)
    (requests : List DecryptRequest) (now : Int) (f : String → Nat)
    (st : DecState) : Except FhevmErr DecResults × DecState :=
  if requests.length = 0 then
    (.error (.config "At least one request is required for batch decryption"), st)
  else decryptOp mws chainId instancePresent signer requests now f st

/-! ## encrypt (core/client.ts `encrypt`) -/

/-- `validateContractAddress(address)`. -/
def validateContractAddress (address : String) : Except FhevmErr Unit :=
  if address = "" then .error (.config "Contract address is required")
  else if !isValidAddress address then
    .error (.config s!"Invalid contract address: {address}")
  else .ok ()

/-- `validateUserAddress(address)`. -/
def validateUserAddress (address : String) : Except FhevmErr Unit :=
  if address = "" then .error (.config "User address is required")
  else if !isValidAddress address then
    .error (.config s!"Invalid user address: {address}")
  else .ok ()

/-- `encrypt(client, params)` up to its engine interaction: the instance
guard and the synchronous validations all run before the `try` block that
first touches the engine (`instance.createEncryptedInput`).  The second
component counts engine interactions (0 when validation rejects). -/
def encryptOp (instancePresent : Bool) (contractAddress userAddress : String)
    (buildIsFunction : Bool) : Except FhevmErr Unit × Nat :=
  if !instancePresent then
    (.error (.config
      "FHEVM instance is required. Create one using createInstance() first."), 0)
  else
    match validateContractAddress contractAddress with
    | .error e => (.error e, 0)
    | .ok _ =>
      match validateUserAddress userAddress with
      | .error e => (.error e, 0)
      | .ok _ =>
        if !buildIsFunction then
          (.error (.config "buildInputs must be a function"), 0)
        else (.ok (), 1)

/-! ## rateLimitMiddleware (middleware.ts)

`rateLimitMiddleware(options)` closes over a `requests` array of admission
timestamps.  On each call it shift-prunes entries older than the window,
and when the window is saturated it awaits the remaining time and then
invokes `rateLimitMiddleware(options)(context, next)` — a freshly
constructed limiter whose `requests` array is empty and is discarded after
the call.  The functions below model one sequential call (each call's
admission completes before the next call arrives, as in a single-threaded
event loop) with explicit virtual time. -/

/-- The `while` shift-loop: drop leading timestamps with
`requests[0] < now - windowMs` (the array is mutated, so the caller's
state is the pruned list). -/
def rlPrune (windowMs now : Int) (reqs : List Int) : List Int :=
  reqs.dropWhile (fun t => decide (t < now - windowMs))

/-- One call through the rate limiter, fuelled for the recursive retry.
Returns the admission time of `next()` and the closure's `requests` array
after the call.  In the saturated branch the retry runs a fresh limiter at
`oldestRequest + windowMs` whose state starts empty and is discarded. -/
def rlCall (fuel : Nat) (maxRequests : Nat) (windowMs : Int)
    (reqs : List Int) (now : Int) : Option (Int × List Int) :=
  match fuel with
  | 0 => none
  | fuel + 1 =>
    let pruned := rlPrune windowMs now reqs
    if maxRequests ≤ pruned.length then
      match pruned.head? with
      | some oldest =>
        match rlCall fuel maxRequests windowMs [] (oldest + windowMs) with
        | some (adm, _) => some (adm, pruned)
        | none => none
      | none => none
    else
      some (now, pruned ++ [now])

/-- Run a sequence of sequential calls (arrival times) through one
`rateLimitMiddleware` closure; returns the admission times and the final
closure state. -/
def rlRun (fuel maxRequests : Nat) (windowMs : Int) (reqs : List Int) :
    List Int → Option (List Int × List Int)
  | [] => some ([], reqs)
  | t :: ts =>
    match rlCall fuel maxRequests windowMs reqs t with
    | some (adm, reqs') =>
      match rlRun fuel maxRequests windowMs reqs' ts with
      | some (adms, final) => some (adm :: adms, final)
      | none => none
    | none => none

/-- `loggingMiddleware` (middleware.ts) on a debug-enabled client: calls
`context.client.debug` (which emits a `debug` event) before `next()`, and
again after it settles, passing the result or error through unchanged. -/
def loggingMw : MwFn := fun _ next st =>
  let st0 := { st with events := st.events ++ ["debug"] }
  match next () st0 with
  | (.ok r, st1) => (.ok r, { st1 with events := st1.events ++ ["debug"] })
  | (.error e, st1) => (.error e, { st1 with events := st1.events ++ ["debug"] })

/-- The default `shouldRetry` predicate of `retryMiddleware`: retry only
when the error message mentions "network", "timeout" or "fetch". -/
def defaultShouldRetry (msg : String) : Bool :=
  strMentions msg "network" || strMentions msg "timeout" || strMentions msg "fetch"

/-! ## Theorems -/

/-- C10: constructing a client with `network === undefined` succeeds
(network validation is deferred to instance creation), whereas
`network === null` throws `FhevmConfigError` synchronously, as do a network
that is neither string nor object, a non-number `chainId`, and a non-object
`mockChains` (object in the JS `typeof` sense). -/
theorem client_config_validation :
    (∀ cid mc : JVal,
        (cid = JVal.undef ∨ cid.typeOf = "number") →
        (mc = JVal.undef ∨ mc.typeOf = "object") →
        constructFhevmClient JVal.undef cid mc = .ok (JVal.undef, cid, mc)) ∧
    (∀ cid mc : JVal, constructFhevmClient JVal.jnull cid mc =
        .error (.config "Network provider cannot be null")) ∧
    (∀ net cid mc : JVal, net ≠ JVal.undef → net ≠ JVal.jnull →
        net.typeOf ≠ "string" → net.typeOf ≠ "object" →
        constructFhevmClient net cid mc =
          .error (.config "Network must be a string (RPC URL) or EIP-1193 provider")) ∧
    (∀ net cid mc : JVal, net ≠ JVal.jnull →
        (net = JVal.undef ∨ net.typeOf = "string" ∨ net.typeOf = "object") →
        cid ≠ JVal.undef → cid.typeOf ≠ "number" →
        constructFhevmClient net cid mc =
          .error (.config "Chain ID must be a number")) ∧
    (∀ net cid mc : JVal, net ≠ JVal.jnull →
        (net = JVal.undef ∨ net.typeOf = "string" ∨ net.typeOf = "object") →
        (cid = JVal.undef ∨ cid.typeOf = "number") →
        mc ≠ JVal.undef → mc.typeOf ≠ "object" →
        constructFhevmClient net cid mc =
          .error (.config "Mock chains must be an object")) := by
  refine ⟨?_, ?_, ?_, ?_, ?_⟩
  · intro cid mc h1 h2
    cases cid <;> cases mc <;>
      simp_all [constructFhevmClient, validateClientConfig, JVal.typeOf]
  · intro cid mc
    simp [constructFhevmClient, validateClientConfig]
  · intro net cid mc h1 h2 h3 h4
    cases net <;>
      simp_all [constructFhevmClient, validateClientConfig, JVal.typeOf]
  · intro net cid mc h1 h2 h3 h4
    cases net <;> cases cid <;>
      simp_all [constructFhevmClient, validateClientConfig, JVal.typeOf]
  · intro net cid mc h1 h2 h3 h4 h5
    cases net <;> cases cid <;> cases mc <;>
      simp_all [constructFhevmClient, validateClientConfig, JVal.typeOf]

/-- Witness for C10 at concrete configurations. -/
theorem client_config_validation_witness :
    constructFhevmClient JVal.undef (JVal.jnum 31337) JVal.jobj =
      .ok (JVal.undef, JVal.jnum 31337, JVal.jobj) ∧
    constructFhevmClient JVal.jnull JVal.undef JVal.undef =
      .error (.config "Network provider cannot be null") ∧
    constructFhevmClient (JVal.jbool true) JVal.undef JVal.undef =
      .error (.config "Network must be a string (RPC URL) or EIP-1193 provider") ∧
    constructFhevmClient (JVal.jstr "http://localhost:8545") (JVal.jstr "31337")
        JVal.undef = .error (.config "Chain ID must be a number") ∧
    constructFhevmClient (JVal.jstr "http://localhost:8545") (JVal.jnum 31337)
        (JVal.jstr "x") = .error (.config "Mock chains must be an object") :=
  ⟨client_config_validation.1 _ _ (Or.inr rfl) (Or.inr rfl),
   client_config_validation.2.1 _ _,
   client_config_validation.2.2.1 _ _ _ (by decide) (by decide) (by decide)
     (by decide),
   client_config_validation.2.2.2.1 _ _ _ (by decide) (Or.inr (Or.inl rfl))
     (by decide) (by decide),
   client_config_validation.2.2.2.2 _ _ _ (by decide) (Or.inr (Or.inl rfl))
     (Or.inr rfl) (by decide) (by decide)⟩

/-- C5 counterexample: with no network configured, `createInstance` throws
`FhevmInstanceError` (name "FhevmInstanceError", code "INSTANCE_ERROR"),
not a `FhevmConfigError` as the claim states. -/
theorem createInstance_missing_network_error_class :
    (instRun (mkInstSys ⟨none, none, []⟩ none 1) [.runStart 0]).tasks =
      [.finishedErr (.instanceErr
        "Network provider is required. Please provide a network when creating the client.")] ∧
    (FhevmErr.instanceErr
        "Network provider is required. Please provide a network when creating the client.").errName
      ≠ "FhevmConfigError" ∧
    (FhevmErr.instanceErr
        "Network provider is required. Please provide a network when creating the client.").errCode
      ≠ "CONFIG_ERROR" := by
  decide

/-- C5 amended: with no network configured (force false, nothing cached),
`createInstance` fails with `FhevmInstanceError` before attempting any
creation (`createFhevmInstance` is never invoked) and caches nothing. -/
theorem createInstance_missing_network_instance_error
    (cid : Option Nat) (mock : List (Nat × String)) :
    instRun (mkInstSys ⟨none, cid, mock⟩ none 1) [.runStart 0] =
      { cfg := ⟨none, cid, mock⟩, client := ⟨none⟩, creations := 0,
        tasks := [.finishedErr (.instanceErr
          "Network provider is required. Please provide a network when creating the client.")] } :=
  rfl

/-- C6 counterexample: a client with `mockChains = {31337: "http://localhost:8545"}`,
`chainId = 31337` and no network does NOT succeed: `createInstance` throws
`FhevmInstanceError` and invokes no creation. -/
theorem createInstance_mock_chains_still_fails :
    (instRun (mkInstSys ⟨none, some 31337, [(31337, "http://localhost:8545")]⟩
        none 1) [.runStart 0]).tasks =
      [.finishedErr (.instanceErr
        "Network provider is required. Please provide a network when creating the client.")] ∧
    (instRun (mkInstSys ⟨none, some 31337, [(31337, "http://localhost:8545")]⟩
        none 1) [.runStart 0]).creations = 0 := by
  decide

/-- C6 amended: `createInstance` consults only `config.network`; whatever
entry `mockChains` holds for the chain (including 31337 ↦ a local RPC URL),
a missing network makes the synchronous prefix throw `FhevmInstanceError`
without starting a creation — `mockChains` is only forwarded to the
creation routine once a network is configured. -/
theorem createInstance_mock_chains_ignored_without_network
    (cfg : InstConfig) (url : String)
    (_hmock : (31337, url) ∈ cfg.mockChains) (hnet : cfg.network = none) :
    createInstancePhase1 cfg ⟨none⟩ false false =
      .threw (.instanceErr
        "Network provider is required. Please provide a network when creating the client.") := by
  simp [createInstancePhase1, hnet]

/-- Witness for the C6 amended theorem. -/
theorem createInstance_mock_chains_ignored_without_network_witness :
    (31337, "http://localhost:8545") ∈
      (InstConfig.mk none (some 31337) [(31337, "http://localhost:8545")]).mockChains ∧
    createInstancePhase1 ⟨none, some 31337, [(31337, "http://localhost:8545")]⟩
        ⟨none⟩ false false =
      .threw (.instanceErr
        "Network provider is required. Please provide a network when creating the client.") :=
  ⟨by decide,
   createInstance_mock_chains_ignored_without_network _ "http://localhost:8545"
     (by decide) rfl⟩

/-- C1 counterexample: two `createInstance` calls issued concurrently
(both synchronous prefixes run before either creation settles) invoke
`createFhevmInstance` twice, not once, and the two callers can receive
different resolution values — there is no shared pending-promise handle. -/
theorem concurrent_createInstance_two_creations :
    (instRun (mkInstSys ⟨some "provider", none, []⟩ none 2)
        [.runStart 0, .runStart 1]).creations = 2 ∧
    (instRun (mkInstSys ⟨some "provider", none, []⟩ none 2)
        [.runStart 0, .runStart 1]).creations ≠ 1 ∧
    (instRun (mkInstSys ⟨some "provider", none, []⟩ none 2)
        [.runStart 0, .runStart 1, .settleCreation 0 (.ok 7),
         .settleCreation 1 (.ok 8)]).tasks =
      [.finishedOk 7, .finishedOk 8] := by
  decide

theorem replicate_append_get {α : Type} (a : α) (l : List α) :
    ∀ n, (List.replicate n a ++ l).get? n = l.get? 0 := by
  intro n
  induction n with
  | zero => simp
  | succ k ih => simpa [List.replicate_succ] using ih

theorem replicate_append_set {α : Type} (a x : α) (l : List α) :
    ∀ n, (List.replicate n a ++ l).set n x = List.replicate n a ++ l.set 0 x := by
  intro n
  induction n with
  | zero => simp
  | succ k ih => simp [List.replicate_succ, ih]

theorem replicate_append_cons {α : Type} (a : α) (l : List α) :
    ∀ k, List.replicate k a ++ a :: l = a :: (List.replicate k a ++ l) := by
  intro k
  induction k with
  | zero => simp
  | succ n ih => simp [List.replicate_succ, ih]

theorem instRun_starts_aux (net : String) (cid : Option Nat)
    (mock : List (Nat × String)) :
    ∀ (n m : Nat),
      instRun
          { cfg := ⟨some net, cid, mock⟩, client := ⟨none⟩, creations := 0,
            tasks := List.replicate (n + m) (.ready false false) }
          ((List.range n).map InstAct.runStart) =
        { cfg := ⟨some net, cid, mock⟩, client := ⟨none⟩, creations := n,
          tasks := List.replicate n (.awaitingCreation false) ++
            List.replicate m (.ready false false) } := by
  intro n
  induction n with
  | zero => intro m; simp [instRun]
  | succ k ih =>
    intro m
    have harith : k + 1 + m = k + (m + 1) := by omega
    rw [harith, List.range_succ, List.map_append]
    simp only [instRun] at ih ⊢
    rw [List.foldl_append, ih (m + 1), List.replicate_succ (n := m)]
    have hget := replicate_append_get (InstTask.awaitingCreation false)
      (InstTask.ready false false :: List.replicate m (InstTask.ready false false)) k
    simp only [List.get?_cons_zero] at hget
    simp only [List.map_cons, List.map_nil, List.foldl_cons, List.foldl_nil,
      instStep, hget, createInstancePhase1, Option.isNone_some,
      Bool.false_eq_true, if_false, replicate_append_set, List.set_cons_zero]
    rw [List.replicate_succ (n := k), replicate_append_cons]
    simp [List.cons_append]

/-- C1 amended: there is no shared pending-promise handle in
`createInstance`; N concurrent calls whose synchronous prefixes all run
before any creation settles each invoke `createFhevmInstance` themselves —
exactly N underlying creation invocations, each call left awaiting its own
creation's outcome.  (Sharing only happens through the cache, after a
creation has resolved.) -/
theorem createInstance_no_single_flight (n : Nat) (net : String)
    (cid : Option Nat) (mock : List (Nat × String)) :
    instRun (mkInstSys ⟨some net, cid, mock⟩ none n)
        ((List.range n).map InstAct.runStart) =
      { cfg := ⟨some net, cid, mock⟩, client := ⟨none⟩, creations := n,
        tasks := List.replicate n (.awaitingCreation false) } := by
  have h := instRun_starts_aux net cid mock n 0
  simpa [mkInstSys] using h

/-- C8 (code bug): with `maxRequests = 1`, `windowMs = 10` and sequential
calls arriving at t = 0, 1, 11, the middleware admits `next()` at
t = 0, 10, 11.  The admissions at t = 10 and t = 11 both fall inside the
sliding window (1, 11] of length `windowMs`, so 2 > maxRequests calls are
admitted in one window: the saturated-path retry runs a freshly
constructed limiter whose empty `requests` array is discarded, so its
admission is never recorded in the original window. -/
theorem rateLimit_sliding_window_violated :
    rlRun 2 1 10 [] [0, 1, 11] = some ([0, 10, 11], [11]) ∧
    (([0, 10, 11].filter (fun t => decide (11 - 10 < t) && decide (t ≤ 11))).length
      = 2) ∧ 1 < 2 := by
  decide

theorem handleMessage_not_pending (st : WorkerState) (m : WMessage)
    (id : String) (h : id ∉ st.pending) :
    id ∉ (handleMessage st m).pending ∧
      settlementsFor (handleMessage st m) id = settlementsFor st id := by
  cases hm : m.wid with
  | none =>
    constructor
    · simpa [handleMessage, hm] using h
    · simp [handleMessage, hm]
  | some i =>
    by_cases hi : i ∈ st.pending
    · have hne : i ≠ id := fun he => h (he ▸ hi)
      constructor
      · simp only [handleMessage, hm, hi, if_true]
        exact fun hmem => h (List.mem_of_mem_erase hmem)
      · simp [handleMessage, hm, hi, settlementsFor, List.filter_append, hne]
    · constructor
      · simpa [handleMessage, hm, hi] using h
      · simp [handleMessage, hm, hi]

theorem handleMessage_dropped (st : WorkerState) (m : WMessage) (id : String)
    (h : id ∉ st.pending) (hm : m.wid = some id) : handleMessage st m = st := by
  unfold handleMessage
  rw [hm]
  simp [h]

theorem wrun_msgs_invariant (id : String) :
    ∀ (msgs : List WMessage) (st : WorkerState), id ∉ st.pending →
      id ∉ (wrun st (msgs.map WEvent.message)).pending ∧
        settlementsFor (wrun st (msgs.map WEvent.message)) id =
          settlementsFor st id := by
  intro msgs
  induction msgs with
  | nil => intro st h; exact ⟨h, rfl⟩
  | cons m ms ih =>
    intro st h
    have hstep := handleMessage_not_pending st m id h
    have hrest := ih (handleMessage st m) hstep.1
    simp only [List.map_cons, wrun, List.foldl_cons] at hrest ⊢
    exact ⟨hrest.1, hrest.2.trans hstep.2⟩

theorem wrun_msgs_all_id_noop (id : String) :
    ∀ (msgs : List WMessage) (st : WorkerState), id ∉ st.pending →
      (∀ m ∈ msgs, m.wid = some id) →
      wrun st (msgs.map WEvent.message) = st := by
  intro msgs
  induction msgs with
  | nil => intro st _ _; rfl
  | cons m ms ih =>
    intro st h hall
    have hm := hall m (List.mem_cons_self m ms)
    have hdrop := handleMessage_dropped st m id h hm
    simp only [List.map_cons, wrun, List.foldl_cons, wstep, hdrop]
    exact ih st h (fun m' hm' => hall m' (List.mem_cons_of_mem m hm'))

/-- C3: a worker request whose timeout fires (default 60000 ms) has its
pending-table entry deleted and is rejected with the timeout error exactly
once; any response for that id arriving afterwards is silently dropped —
the state is unchanged (no second settlement, no observable effect), and
this holds across any subsequent message traffic. -/
theorem worker_timeout_rejects_once_late_response_dropped :
    requestTimeoutMs = 60000 ∧
    ∀ (st : WorkerState) (id : String) (msgs : List WMessage),
      id ∈ st.pending → st.pending.Nodup → settlementsFor st id = [] →
      (id ∉ (wstep st (.timeoutFire id)).pending) ∧
      settlementsFor (wstep st (.timeoutFire id)) id =
        [.rejectedE "Worker request timeout"] ∧
      settlementsFor
          (wrun (wstep st (.timeoutFire id)) (msgs.map WEvent.message)) id =
        [.rejectedE "Worker request timeout"] ∧
      (id ∉ (wrun (wstep st (.timeoutFire id)) (msgs.map WEvent.message)).pending) ∧
      ((∀ m ∈ msgs, m.wid = some id) →
        wrun (wstep st (.timeoutFire id)) (msgs.map WEvent.message) =
          wstep st (.timeoutFire id)) := by
  refine ⟨rfl, ?_⟩
  intro st id msgs hmem hnodup hnone
  have hstep : wstep st (.timeoutFire id) =
      { st with pending := st.pending.erase id,
                settled := st.settled ++
                  [(id, .rejectedE "Worker request timeout")] } := by
    simp [wstep, hmem]
  have hnotp : id ∉ (wstep st (.timeoutFire id)).pending := by
    rw [hstep]
    intro hc
    exact ((hnodup.mem_erase_iff).mp hc).1 rfl
  have hsettle : settlementsFor (wstep st (.timeoutFire id)) id =
      [.rejectedE "Worker request timeout"] := by
    rw [hstep]
    simp only [settlementsFor] at hnone ⊢
    simp [List.filter_append, hnone]
  have hinv := wrun_msgs_invariant id msgs _ hnotp
  exact ⟨hnotp, hsettle, hinv.2.trans hsettle, hinv.1,
    fun hall => wrun_msgs_all_id_noop id msgs _ hnotp hall⟩

/-- Concrete scenario for C3: one pending request, its timeout fires, then
an `encrypt-response` for the same id arrives late. -/
def c3State : WorkerState :=
  { hasWorker := true, isInitialized := true, hasInitPromise := true,
    pending := ["req_1_0"], settled := [] }

def c3LateMsgs : List WMessage :=
  [{ wtype := "encrypt-response", wid := some "req_1_0", payload := some 5,
     werror := none }]

/-- Witness for C3 at the concrete scenario. -/
theorem worker_timeout_witness :
    "req_1_0" ∈ c3State.pending ∧ c3State.pending.Nodup ∧
    settlementsFor c3State "req_1_0" = [] ∧
    (("req_1_0" ∉ (wstep c3State (.timeoutFire "req_1_0")).pending) ∧
      settlementsFor (wstep c3State (.timeoutFire "req_1_0")) "req_1_0" =
        [.rejectedE "Worker request timeout"] ∧
      settlementsFor
          (wrun (wstep c3State (.timeoutFire "req_1_0"))
            (c3LateMsgs.map WEvent.message)) "req_1_0" =
        [.rejectedE "Worker request timeout"] ∧
      ("req_1_0" ∉ (wrun (wstep c3State (.timeoutFire "req_1_0"))
          (c3LateMsgs.map WEvent.message)).pending) ∧
      ((∀ m ∈ c3LateMsgs, m.wid = some "req_1_0") →
        wrun (wstep c3State (.timeoutFire "req_1_0"))
            (c3LateMsgs.map WEvent.message) =
          wstep c3State (.timeoutFire "req_1_0"))) :=
  ⟨by decide, by decide, by decide,
   worker_timeout_rejects_once_late_response_dropped.2 c3State "req_1_0"
     c3LateMsgs (by decide) (by decide) (by decide)⟩

theorem filter_map_pair_not_mem (i : String) (r : WOutcome) :
    ∀ l : List String, i ∉ l →
      (l.map (fun j => (j, r))).filter (fun p => p.1 = i) = [] := by
  intro l
  induction l with
  | nil => intro _; rfl
  | cons j l ih =>
    intro h
    have hji : ¬(j = i) := fun he => h (he ▸ List.mem_cons_self j l)
    simp only [List.map_cons, List.filter_cons]
    simp [hji, ih (fun hc => h (List.mem_cons_of_mem j hc))]

theorem nodup_map_filter_single (i : String) (r : WOutcome) :
    ∀ l : List String, l.Nodup → i ∈ l →
      ((l.map (fun j => (j, r))).filter (fun p => p.1 = i)).map Prod.snd
        = [r] := by
  intro l
  induction l with
  | nil => intro _ h; cases h
  | cons j l ih =>
    intro hn hm
    rcases List.mem_cons.mp hm with he | hl
    · have hjl : i ∉ l := he ▸ (List.nodup_cons.mp hn).1
      simp [← he, filter_map_pair_not_mem i r l hjl]
    · have hji : ¬(j = i) := fun he' => (List.nodup_cons.mp hn).1 (he' ▸ hl)
      simp only [List.map_cons, List.filter_cons]
      simp [hji, ih (List.nodup_cons.mp hn).2 hl]

/-- C7: `terminate()` on a bridge with a live worker rejects every pending
request with the "Worker terminated" error, leaves the pending table empty,
and leaves the bridge non-reusable: worker handle cleared, `initialized`
false, init promise cleared, and `sendMessage` would refuse (`canSend`
false) until re-`init`. -/
theorem terminate_rejects_all_pending_clears_table
    (st : WorkerState) (i : String) (hw : st.hasWorker = true)
    (hnodup : st.pending.Nodup) (hmem : i ∈ st.pending) :
    (wstep st .terminateW).pending = [] ∧
    (wstep st .terminateW).settled =
      st.settled ++
        st.pending.map (fun j => (j, WOutcome.rejectedE "Worker terminated")) ∧
    settlementsFor (wstep st .terminateW) i =
      settlementsFor st i ++ [.rejectedE "Worker terminated"] ∧
    (wstep st .terminateW).hasWorker = false ∧
    (wstep st .terminateW).isInitialized = false ∧
    (wstep st .terminateW).hasInitPromise = false ∧
    canSend (wstep st .terminateW) = false := by
  have hstep : wstep st .terminateW =
      { hasWorker := false, isInitialized := false, hasInitPromise := false,
        pending := [],
        settled := st.settled ++
          st.pending.map (fun j => (j, WOutcome.rejectedE "Worker terminated")) } := by
    simp [wstep, hw]
  rw [hstep]
  refine ⟨rfl, rfl, ?_, rfl, rfl, rfl, rfl⟩
  simp only [settlementsFor, List.filter_append, List.map_append]
  rw [nodup_map_filter_single i _ st.pending hnodup hmem]

/-- Concrete scenario for C7: a bridge with two pending requests. -/
def c7State : WorkerState :=
  { hasWorker := true, isInitialized := true, hasInitPromise := true,
    pending := ["req_1_5", "req_2_9"], settled := [] }

/-- Witness for C7 at the two-pending-request scenario. -/
theorem terminate_witness :
    c7State.hasWorker = true ∧ c7State.pending.Nodup ∧
    "req_1_5" ∈ c7State.pending ∧
    ((wstep c7State .terminateW).pending = [] ∧
      (wstep c7State .terminateW).settled =
        c7State.settled ++
          c7State.pending.map
            (fun j => (j, WOutcome.rejectedE "Worker terminated")) ∧
      settlementsFor (wstep c7State .terminateW) "req_1_5" =
        settlementsFor c7State "req_1_5" ++ [.rejectedE "Worker terminated"] ∧
      (wstep c7State .terminateW).hasWorker = false ∧
      (wstep c7State .terminateW).isInitialized = false ∧
      (wstep c7State .terminateW).hasInitPromise = false ∧
      canSend (wstep c7State .terminateW) = false) :=
  ⟨rfl, by decide, by decide,
   terminate_rejects_all_pending_clears_table c7State "req_1_5" rfl
     (by decide) (by decide)⟩

/-- C9 counterexample: a decrypt call with an empty request list (an
invalid input shape) does NOT fail before any work: the `decrypt:start`
event is emitted and an installed (logging) middleware executes before
validation runs inside the innermost handler, and the failure surfaces
wrapped as `FhevmDecryptionError` (with `decrypt:error`/`error` events),
not as the bare synchronous validation failure. -/
theorem decrypt_validation_after_events_and_middleware :
    (decryptOp [loggingMw] (some 31337) true (some "0xuser") [] 0
        (fun _ => 0) emptyDecState).2.events =
      ["decrypt:start", "debug", "debug", "decrypt:error", "error"] ∧
    (decryptOp [loggingMw] (some 31337) true (some "0xuser") [] 0
        (fun _ => 0) emptyDecState).1 =
      .error (.decryption "Decryption failed: At least one request is required") := by
  constructor <;> rfl

/-- C9 amended: `encrypt` does validate synchronously before any engine
interaction, but `decrypt` validates inside the middleware pipeline's
innermost handler: `decrypt:start` is emitted and installed middleware run
before validation, and the validation failure is rethrown wrapped as
`FhevmDecryptionError` after `decrypt:error`/`error` events; no signing or
engine call happens, and the failure is not retried by the default retry
predicate. -/
theorem validation_failure_semantics (c u : String) (b : Bool)
    (hbad : isValidAddress c = false ∨ isValidAddress u = false) :
    ((encryptOp true c u b).2 = 0 ∧
      ∃ m, (encryptOp true c u b).1 = Except.error (.config m)) ∧
    (∀ (cid : Option Nat) (sgn : String) (now : Int) (f : String → Nat)
        (st : DecState),
      decryptOp [] cid true (some sgn) [] now f st =
        (.error (.decryption "Decryption failed: At least one request is required"),
         { st with events :=
            st.events ++ ["decrypt:start", "decrypt:error", "error"] })) ∧
    (∀ (cid : Option Nat) (sgn : String) (now : Int) (f : String → Nat)
        (st : DecState),
      decryptOp [loggingMw] cid true (some sgn) [] now f st =
        (.error (.decryption "Decryption failed: At least one request is required"),
         { st with events := st.events ++
            ["decrypt:start", "debug", "debug", "decrypt:error", "error"] })) ∧
    defaultShouldRetry "At least one request is required" = false := by
  refine ⟨?_, ?_, ?_, by decide⟩
  · rcases hbad with hc | hu
    · by_cases hce : c = ""
      · exact ⟨by simp [encryptOp, validateContractAddress, hce],
          "Contract address is required",
          by simp [encryptOp, validateContractAddress, hce]⟩
      · refine ⟨by simp [encryptOp, validateContractAddress, hce, hc], ?_⟩
        exact ⟨s!"Invalid contract address: {c}",
          by simp [encryptOp, validateContractAddress, hce, hc]⟩
    · by_cases hce : c = ""
      · exact ⟨by simp [encryptOp, validateContractAddress, hce],
          "Contract address is required",
          by simp [encryptOp, validateContractAddress, hce]⟩
      · by_cases hcv : isValidAddress c
        · by_cases hue : u = ""
          · exact ⟨by simp [encryptOp, validateContractAddress,
                validateUserAddress, hce, hcv, hue],
              "User address is required",
              by simp [encryptOp, validateContractAddress,
                validateUserAddress, hce, hcv, hue]⟩
          · refine ⟨by simp [encryptOp, validateContractAddress,
                validateUserAddress, hce, hcv, hue, hu], ?_⟩
            exact ⟨s!"Invalid user address: {u}",
              by simp [encryptOp, validateContractAddress,
                validateUserAddress, hce, hcv, hue, hu]⟩
        · refine ⟨by simp [encryptOp, validateContractAddress, hce, hcv], ?_⟩
          exact ⟨s!"Invalid contract address: {c}",
            by simp [encryptOp, validateContractAddress, hce, hcv]⟩
  · intro cid sgn now f st
    simp [decryptOp, executeChain, decryptInner, validateDecryptRequests,
      strMentions]
    split_ifs with h
    · exact absurd h (by decide)
    · rfl
  · intro cid sgn now f st
    simp [decryptOp, executeChain, decryptInner, validateDecryptRequests,
      loggingMw, strMentions]
    split_ifs with h
    · exact absurd h (by decide)
    · rfl

/-- Witness for the C9 amended theorem at a malformed contract address. -/
theorem validation_failure_semantics_witness :
    (isValidAddress "0xZZ" = false ∨ isValidAddress "0xuser" = false) ∧
    (((encryptOp true "0xZZ" "0xuser" true).2 = 0 ∧
      ∃ m, (encryptOp true "0xZZ" "0xuser" true).1 =
        Except.error (.config m)) ∧
    (∀ (cid : Option Nat) (sgn : String) (now : Int) (f : String → Nat)
        (st : DecState),
      decryptOp [] cid true (some sgn) [] now f st =
        (.error (.decryption "Decryption failed: At least one request is required"),
         { st with events :=
            st.events ++ ["decrypt:start", "decrypt:error", "error"] })) ∧
    (∀ (cid : Option Nat) (sgn : String) (now : Int) (f : String → Nat)
        (st : DecState),
      decryptOp [loggingMw] cid true (some sgn) [] now f st =
        (.error (.decryption "Decryption failed: At least one request is required"),
         { st with events := st.events ++
            ["decrypt:start", "debug", "debug", "decrypt:error", "error"] })) ∧
    defaultShouldRetry "At least one request is required" = false) :=
  ⟨by decide, validation_failure_semantics "0xZZ" "0xuser" true (by decide)⟩

/-! ### Order lemmas for the normalized address list -/

theorem charListLe_total : ∀ a b : List Char,
    charListLe a b = true ∨ charListLe b a = true := by
  intro a
  induction a with
  | nil => intro b; left; rfl
  | cons x xs ih =>
    intro b
    cases b with
    | nil => right; rfl
    | cons y ys =>
      by_cases hxy : x = y
      · subst hxy
        rcases ih ys with h | h
        · left; simpa [charListLe] using h
        · right; simpa [charListLe] using h
      · rcases le_total x y with h | h
        · left; simp [charListLe, hxy, h]
        · right; simp [charListLe, Ne.symm hxy, h]

theorem charListLe_antisymm : ∀ a b : List Char,
    charListLe a b = true → charListLe b a = true → a = b := by
  intro a
  induction a with
  | nil =>
    intro b h1 h2
    cases b with
    | nil => rfl
    | cons y ys => simp [charListLe] at h2
  | cons x xs ih =>
    intro b h1 h2
    cases b with
    | nil => simp [charListLe] at h1
    | cons y ys =>
      by_cases hxy : x = y
      · subst hxy
        simp only [charListLe, if_pos rfl] at h1 h2
        rw [ih ys h1 h2]
      · simp only [charListLe, if_neg hxy, if_neg (Ne.symm hxy),
          decide_eq_true_eq] at h1 h2
        exact absurd (le_antisymm h1 h2) hxy

theorem strLe_total (a b : String) : strLe a b = true ∨ strLe b a = true :=
  charListLe_total a.data b.data

theorem strLe_antisymm (a b : String) (h1 : strLe a b = true)
    (h2 : strLe b a = true) : a = b := by
  have h := charListLe_antisymm a.data b.data h1 h2
  cases a; cases b; exact congrArg String.mk h

theorem sortStrings_pair_comm (A B : String) :
    sortStrings [A, B] = sortStrings [B, A] := by
  by_cases hab : A = B
  · rw [hab]
  · by_cases h1 : strLe A B = true <;> by_cases h2 : strLe B A = true
    · exact absurd (strLe_antisymm A B h1 h2) hab
    · simp [sortStrings, insertSorted, h1, h2]
    · simp [sortStrings, insertSorted, h1, h2]
    · rcases strLe_total A B with h | h
      · exact absurd h h1
      · exact absurd h h2

theorem insertSorted_length (x : String) :
    ∀ l, (insertSorted x l).length = l.length + 1 := by
  intro l
  induction l with
  | nil => rfl
  | cons y ys ih =>
    by_cases h : strLe x y = true
    · simp [insertSorted, h]
    · simp [insertSorted, h, ih]

theorem sortStrings_length : ∀ l, (sortStrings l).length = l.length := by
  intro l
  induction l with
  | nil => rfl
  | cons x xs ih => simp [sortStrings, insertSorted_length, ih]

theorem dedupFirst_pair (A B : String) (h : B ≠ A) :
    dedupFirst [A, B] = [A, B] := by
  simp [dedupFirst, dedupFirstAux, h]

theorem dedupFirst_triple (A B C : String) (hba : B ≠ A) (hca : C ≠ A)
    (hcb : C ≠ B) : dedupFirst [A, B, C] = [A, B, C] := by
  simp [dedupFirst, dedupFirstAux, hba, hca, hcb]

theorem dedupFirst_aab (A B : String) (hba : B ≠ A) :
    dedupFirst [A, A, B] = [A, B] := by
  simp [dedupFirst, dedupFirstAux, hba]

/-! ### Validation lemmas -/

theorem validateAux_ok : ∀ (reqs : List DecryptRequest) (i : Nat),
    (∀ r ∈ reqs, r.handle ≠ "" ∧ isValidAddress r.contractAddress = true) →
    validateDecryptRequestsAux i reqs = .ok () := by
  intro reqs
  induction reqs with
  | nil => intro i _; rfl
  | cons r rs ih =>
    intro i h
    have hr := h r (List.mem_cons_self r rs)
    have haddr : r.contractAddress ≠ "" := by
      intro he
      rw [he] at hr
      exact absurd hr.2 (by decide)
    simp [validateDecryptRequestsAux, hr.1, hr.2, haddr,
      ih (i + 1) (fun r' hr' => h r' (List.mem_cons_of_mem r hr'))]

theorem validate_ok (reqs : List DecryptRequest) (hne : reqs ≠ [])
    (h : ∀ r ∈ reqs, r.handle ≠ "" ∧ isValidAddress r.contractAddress = true) :
    validateDecryptRequests reqs = .ok () := by
  simp [validateDecryptRequests, List.length_eq_zero, hne, validateAux_ok reqs 0 h]

/-! ### Signature-cache scenarios -/

/-- The signature produced by the first signing over contract set {A, B}
(fresh timestamp `t1`, default duration, first signing operation). -/
def sigAB (u A B : String) (t1 : Int) : DecSig :=
  { contractAddresses := sortStrings [A, B], userAddress := u,
    startTimestamp := t1, durationDays := defaultDurationDays, sigTag := 0 }

/-- Client state after one decrypt over contract set {A, B} starting from
an empty signature store: one signing, one `userDecrypt` call, the
signature persisted under the key (chain, signer, sorted [A, B]). -/
def stateAfterAB (cid : Option Nat) (u A B : String) (t1 : Int) : DecState :=
  { sigStore := [((cid, u, sortStrings [A, B]), sigAB u A B t1)],
    signOps := 1, userDecryptCalls := 1, sigUses := [sigAB u A B t1],
    events := ["decrypt:start", "decrypt:success"] }

/-- Client state after a further decrypt over {B, A}: a cache hit — the
stored signature is reused (signOps still 1), one more `userDecrypt`. -/
def stateAfterABBA (cid : Option Nat) (u A B : String) (t1 : Int) : DecState :=
  { sigStore := [((cid, u, sortStrings [A, B]), sigAB u A B t1)],
    signOps := 1, userDecryptCalls := 2,
    sigUses := [sigAB u A B t1, sigAB u A B t1],
    events := ["decrypt:start", "decrypt:success",
               "decrypt:start", "decrypt:success"] }

/-- C2: starting from an empty signature store, a decrypt over contract
set {A, B} signs once; a later decrypt over {B, A} (within the validity
window) is a cache hit — the same signature is reused with no new signing,
because the cache key is derived from the sorted, deduplicated address
list; a decrypt over {A, B, C} is a cache miss and signs fresh. -/
theorem decrypt_signature_cache_order_independent
    (f : String → Nat) (cid : Option Nat) (u A B C h1 h2 h3 : String)
    (t1 t2 t3 : Int)
    (hA : isValidAddress A = true) (hB : isValidAddress B = true)
    (hC : isValidAddress C = true)
    (hab : A ≠ B) (hca : C ≠ A) (hcb : C ≠ B)
    (hh1 : h1 ≠ "") (hh2 : h2 ≠ "") (hh3 : h3 ≠ "")
    (hwin : t2 < t1 + defaultDurationDays * 86400) :
    decryptOp [] cid true (some u) [⟨h1, A⟩, ⟨h2, B⟩] t1 f emptyDecState =
      (.ok [(h1, f h1), (h2, f h2)], stateAfterAB cid u A B t1) ∧
    (stateAfterAB cid u A B t1).signOps = 1 ∧
    decryptOp [] cid true (some u) [⟨h1, B⟩, ⟨h2, A⟩] t2 f
        (stateAfterAB cid u A B t1) =
      (.ok [(h1, f h1), (h2, f h2)], stateAfterABBA cid u A B t1) ∧
    (stateAfterABBA cid u A B t1).signOps = 1 ∧
    (stateAfterABBA cid u A B t1).sigUses = [sigAB u A B t1, sigAB u A B t1] ∧
    (sigAB u A B t1).contractAddresses = sortStrings [A, B] ∧
    ((decryptOp [] cid true (some u) [⟨h1, A⟩, ⟨h2, B⟩, ⟨h3, C⟩] t3 f
        (stateAfterABBA cid u A B t1)).2).signOps = 2 := by
  have hval1 : validateDecryptRequests [⟨h1, A⟩, ⟨h2, B⟩] = .ok () := by
    refine validate_ok _ (by simp) ?_
    intro r hr
    rcases List.mem_cons.mp hr with he | hr2
    · rw [he]; exact ⟨hh1, hA⟩
    · rcases List.mem_cons.mp hr2 with he | hr3
      · rw [he]; exact ⟨hh2, hB⟩
      · cases hr3
  have hval2 : validateDecryptRequests [⟨h1, B⟩, ⟨h2, A⟩] = .ok () := by
    refine validate_ok _ (by simp) ?_
    intro r hr
    rcases List.mem_cons.mp hr with he | hr2
    · rw [he]; exact ⟨hh1, hB⟩
    · rcases List.mem_cons.mp hr2 with he | hr3
      · rw [he]; exact ⟨hh2, hA⟩
      · cases hr3
  have hval3 : validateDecryptRequests [⟨h1, A⟩, ⟨h2, B⟩, ⟨h3, C⟩] = .ok () := by
    refine validate_ok _ (by simp) ?_
    intro r hr
    rcases List.mem_cons.mp hr with he | hr2
    · rw [he]; exact ⟨hh1, hA⟩
    · rcases List.mem_cons.mp hr2 with he | hr3
      · rw [he]; exact ⟨hh2, hB⟩
      · rcases List.mem_cons.mp hr3 with he | hr4
        · rw [he]; exact ⟨hh3, hC⟩
        · cases hr4
  have hd1 : dedupFirst [A, B] = [A, B] := dedupFirst_pair A B (Ne.symm hab)
  have hd2 : dedupFirst [B, A] = [B, A] := dedupFirst_pair B A hab
  have hd3 : dedupFirst [A, B, C] = [A, B, C] :=
    dedupFirst_triple A B C (Ne.symm hab) hca hcb
  have hs : sortStrings [B, A] = sortStrings [A, B] :=
    (sortStrings_pair_comm A B).symm
  have hne3 : sortStrings [A, B, C] ≠ sortStrings [A, B] := by
    intro h
    have hlen := congrArg List.length h
    simp [sortStrings_length] at hlen
  have hbeq : (((cid, u, sortStrings [A, B, C]) :
      Option Nat × String × List String) ==
        (cid, u, sortStrings [A, B])) = false := by
    rw [beq_eq_false_iff_ne]
    intro h
    exact hne3 (congrArg (fun p => p.2.2) h)
  refine ⟨?_, rfl, ?_, rfl, rfl, rfl, ?_⟩
  · simp [decryptOp, executeChain, decryptInner, hval1, loadOrSign,
      normalizeAddrs, hd1, emptyDecState, stateAfterAB, sigAB]
  · simp [decryptOp, executeChain, decryptInner, hval2, loadOrSign,
      normalizeAddrs, hd2, hs, stateAfterAB, stateAfterABBA, sigAB,
      List.lookup, hwin]
  · simp [decryptOp, executeChain, decryptInner, hval3, loadOrSign,
      normalizeAddrs, hd3, stateAfterABBA, sigAB, List.lookup, hbeq]

/-- Witness for C2 at concrete addresses, handles and timestamps. -/
theorem decrypt_signature_cache_witness :
    (isValidAddress "0x1111111111111111111111111111111111111111" = true ∧
     isValidAddress "0x2222222222222222222222222222222222222222" = true ∧
     isValidAddress "0x3333333333333333333333333333333333333333" = true ∧
     (200 : Int) < 100 + defaultDurationDays * 86400) ∧
    (decryptOp [] (some 31337) true (some "0xabcd")
        [⟨"h1", "0x1111111111111111111111111111111111111111"⟩,
         ⟨"h2", "0x2222222222222222222222222222222222222222"⟩] 100
        (fun _ => 0) emptyDecState =
      (.ok [("h1", 0), ("h2", 0)],
       stateAfterAB (some 31337) "0xabcd"
         "0x1111111111111111111111111111111111111111"
         "0x2222222222222222222222222222222222222222" 100) ∧
     (stateAfterAB (some 31337) "0xabcd"
        "0x1111111111111111111111111111111111111111"
        "0x2222222222222222222222222222222222222222" 100).signOps = 1 ∧
     decryptOp [] (some 31337) true (some "0xabcd")
        [⟨"h1", "0x2222222222222222222222222222222222222222"⟩,
         ⟨"h2", "0x1111111111111111111111111111111111111111"⟩] 200
        (fun _ => 0)
        (stateAfterAB (some 31337) "0xabcd"
          "0x1111111111111111111111111111111111111111"
          "0x2222222222222222222222222222222222222222" 100) =
      (.ok [("h1", 0), ("h2", 0)],
       stateAfterABBA (some 31337) "0xabcd"
         "0x1111111111111111111111111111111111111111"
         "0x2222222222222222222222222222222222222222" 100) ∧
     (stateAfterABBA (some 31337) "0xabcd"
        "0x1111111111111111111111111111111111111111"
        "0x2222222222222222222222222222222222222222" 100).signOps = 1 ∧
     (stateAfterABBA (some 31337) "0xabcd"
        "0x1111111111111111111111111111111111111111"
        "0x2222222222222222222222222222222222222222" 100).sigUses =
       [sigAB "0xabcd" "0x1111111111111111111111111111111111111111"
          "0x2222222222222222222222222222222222222222" 100,
        sigAB "0xabcd" "0x1111111111111111111111111111111111111111"
          "0x2222222222222222222222222222222222222222" 100] ∧
     (sigAB "0xabcd" "0x1111111111111111111111111111111111111111"
        "0x2222222222222222222222222222222222222222" 100).contractAddresses =
       sortStrings ["0x1111111111111111111111111111111111111111",
         "0x2222222222222222222222222222222222222222"] ∧
     ((decryptOp [] (some 31337) true (some "0xabcd")
        [⟨"h1", "0x1111111111111111111111111111111111111111"⟩,
         ⟨"h2", "0x2222222222222222222222222222222222222222"⟩,
         ⟨"h3", "0x3333333333333333333333333333333333333333"⟩] 300
        (fun _ => 0)
        (stateAfterABBA (some 31337) "0xabcd"
          "0x1111111111111111111111111111111111111111"
          "0x2222222222222222222222222222222222222222" 100)).2).signOps = 2) :=
  ⟨⟨by decide, by decide, by decide, by decide⟩,
   decrypt_signature_cache_order_independent (fun _ => 0) (some 31337) "0xabcd"
     "0x1111111111111111111111111111111111111111"
     "0x2222222222222222222222222222222222222222"
     "0x3333333333333333333333333333333333333333" "h1" "h2" "h3" 100 200 300
     (by decide) (by decide) (by decide) (by decide) (by decide) (by decide)
     (by decide) (by decide) (by decide) (by decide)⟩

/-- C4: `batchDecrypt` for requests `[{h1,A},{h2,A},{h3,B}]` from an empty
signature store performs exactly one signing operation, over the union
{A, B} (sorted, deduplicated), makes exactly one underlying `userDecrypt`
call, and returns a decrypted value for every requested handle. -/
theorem batchDecrypt_single_signature_single_call
    (f : String → Nat) (cid : Option Nat) (u A B h1 h2 h3 : String) (t : Int)
    (hA : isValidAddress A = true) (hB : isValidAddress B = true)
    (hab : A ≠ B) (hh1 : h1 ≠ "") (hh2 : h2 ≠ "") (hh3 : h3 ≠ "") :
    batchDecryptOp [] cid true (some u) [⟨h1, A⟩, ⟨h2, A⟩, ⟨h3, B⟩] t f
        emptyDecState =
      (.ok [(h1, f h1), (h2, f h2), (h3, f h3)], stateAfterAB cid u A B t) ∧
    (stateAfterAB cid u A B t).signOps = 1 ∧
    (stateAfterAB cid u A B t).userDecryptCalls = 1 ∧
    (stateAfterAB cid u A B t).sigUses = [sigAB u A B t] ∧
    (sigAB u A B t).contractAddresses = sortStrings [A, B] := by
  have hval : validateDecryptRequests [⟨h1, A⟩, ⟨h2, A⟩, ⟨h3, B⟩] = .ok () := by
    refine validate_ok _ (by simp) ?_
    intro r hr
    rcases List.mem_cons.mp hr with he | hr2
    · rw [he]; exact ⟨hh1, hA⟩
    · rcases List.mem_cons.mp hr2 with he | hr3
      · rw [he]; exact ⟨hh2, hA⟩
      · rcases List.mem_cons.mp hr3 with he | hr4
        · rw [he]; exact ⟨hh3, hB⟩
        · cases hr4
  have hd : dedupFirst [A, A, B] = [A, B] := dedupFirst_aab A B (Ne.symm hab)
  have hd1 : dedupFirst [A, B] = [A, B] := dedupFirst_pair A B (Ne.symm hab)
  refine ⟨?_, rfl, rfl, rfl, rfl⟩
  simp [batchDecryptOp, decryptOp, executeChain, decryptInner, hval,
    loadOrSign, normalizeAddrs, hd, hd1, emptyDecState, stateAfterAB, sigAB]

/-- Witness for C4 at concrete addresses, handles and a timestamp. -/
theorem batchDecrypt_witness :
    (isValidAddress "0x1111111111111111111111111111111111111111" = true ∧
     isValidAddress "0x2222222222222222222222222222222222222222" = true) ∧
    (batchDecryptOp [] (some 31337) true (some "0xabcd")
        [⟨"h1", "0x1111111111111111111111111111111111111111"⟩,
         ⟨"h2", "0x1111111111111111111111111111111111111111"⟩,
         ⟨"h3", "0x2222222222222222222222222222222222222222"⟩] 100
        (fun _ => 7) emptyDecState =
      (.ok [("h1", 7), ("h2", 7), ("h3", 7)],
       stateAfterAB (some 31337) "0xabcd"
         "0x1111111111111111111111111111111111111111"
         "0x2222222222222222222222222222222222222222" 100) ∧
     (stateAfterAB (some 31337) "0xabcd"
        "0x1111111111111111111111111111111111111111"
        "0x2222222222222222222222222222222222222222" 100).signOps = 1 ∧
     (stateAfterAB (some 31337) "0xabcd"
        "0x1111111111111111111111111111111111111111"
        "0x2222222222222222222222222222222222222222" 100).userDecryptCalls = 1 ∧
     (stateAfterAB (some 31337) "0xabcd"
        "0x1111111111111111111111111111111111111111"
        "0x2222222222222222222222222222222222222222" 100).sigUses =
       [sigAB "0xabcd" "0x1111111111111111111111111111111111111111"
          "0x2222222222222222222222222222222222222222" 100] ∧
     (sigAB "0xabcd" "0x1111111111111111111111111111111111111111"
        "0x2222222222222222222222222222222222222222" 100).contractAddresses =
       sortStrings ["0x1111111111111111111111111111111111111111",
         "0x2222222222222222222222222222222222222222"]) :=
  ⟨⟨by decide, by decide⟩,
   batchDecrypt_single_signature_single_call (fun _ => 7) (some 31337) "0xabcd"
     "0x1111111111111111111111111111111111111111"
     "0x2222222222222222222222222222222222222222" "h1" "h2" "h3" 100
     (by decide) (by decide) (by decide) (by decide) (by decide) (by decide)⟩

end FhevmSpec
